import Mathlib

/-!
# Verification of the Tourism Management System user store

A shallow embedding of `src/Tourism_Management_System.c`: a linked list of
`user` records with registration, login, booking, cancellation,
password change, total-cost query, and a whitespace-delimited text
serialization (`filing` writes, `initializeUser` reads back).

Strings are modelled as Lean `String`s; the C `float price` field is
modelled as a natural number (every price the program ever stores is a
non-negative integer — catalog prices or 0 — exactly representable in
`float`, and `printf "%f"` renders it as the digits followed by
`.000000`); `int numberTicket` is modelled as `Int` (the code reads it
with `scanf "%d"`, which accepts negative values).  Fallible parsing
(`fscanf` conversion failure, which in the C leaves indeterminate struct
fields) is modelled with `Option`.
-/

namespace TMS

/-- The `user` struct of the C source (without the intrusive `next`
pointer: the store is a Lean list). -/
structure User where
  username : String
  password : String
  place : String
  price : Nat
  numberTicket : Int
  deriving Repr, DecidableEq

/-- `placeList` of `booking` (also the destination names in `showMenu`
and the `cancellation` comparison chain). -/
def placeList : List String :=
  ["Paris, France", "Tokyo, Japan", "Bangkok, Thailand", "Abu Dhabi, UAE",
   "Miami, USA", "Rome, Italy", "Munich, Germany", "Madrid, Spain",
   "Istanbul, Turkey", "Gilgit, Pakistan"]

/-- `priceList` of `booking`. -/
def priceList : List Nat :=
  [400000, 600000, 250000, 380000, 120000, 100000, 300000, 320000, 450000, 75000]

/-- Outcome of `addUser` ("Error: Username already exists!" vs
"User account created successfully!"). -/
inductive RegisterResult where
  | DuplicateUsername
  | Success
  deriving Repr, DecidableEq

/-- Outcome of `login` ("Login successful!", "Wrong Password! Access
denied.", "User not found! Please register first."). -/
inductive AuthResult where
  | Success
  | WrongPassword
  | UserNotFound
  deriving Repr, DecidableEq

/-- Outcome of `booking` (active-booking guard message, silent return on
an unconfirmed booking, "Invalid tour code number entered!", silent
return when the entered ticket count is `0`, "Booking completed
successfully!"). -/
inductive BookResult where
  | AlreadyBooked
  | NotConfirmed
  | InvalidTourCode
  | ZeroTickets
  | Success
  deriving Repr, DecidableEq

/-- Outcome of `cancellation` ("No tour has been booked to cancel!" vs
the refund message). -/
inductive CancelResult where
  | NoActiveBooking
  | Cancelled (refund : Int)
  deriving Repr, DecidableEq

/-- Outcome of `checkTicket` ("No ticket booked!" vs the total printed). -/
inductive TicketResult where
  | NoActiveBooking
  | Amount (total : Int)
  deriving Repr, DecidableEq

/-- `addUser`: scans the list for the new username; on a duplicate it
returns the list head unchanged; otherwise it appends a fresh record
(`place = "N/A"`, `price = 0.0`, `numberTicket = 0`) at the tail. -/
def addUser (store : List User) (uname pwd : String) : List User × RegisterResult :=
  if store.any (fun u => u.username = uname) then
    (store, .DuplicateUsername)
  else
    (store ++ [{ username := uname, password := pwd, place := "N/A",
                 price := 0, numberTicket := 0 }], .Success)

/-- `login`: walks the list; at the first node whose username matches it
returns that node (the suffix of the list from it) — with `Success` when
the password also matches, `WrongPassword` otherwise; falling off the
end returns `NULL` (the empty list) with `UserNotFound`.  The caller in
`main` installs the returned pointer as the new list head
(`userptr = login(userptr)`). -/
def login : List User → String → String → List User × AuthResult
  | [], _, _ => ([], .UserNotFound)
  | u :: rest, uname, pwd =>
    if u.username = uname then
      if u.password = pwd then (u :: rest, .Success)
      else (u :: rest, .WrongPassword)
    else login rest uname pwd

/-- The tour-code dispatch chain of `booking`: the entered code string is
compared against `"1"` … `"10"`; a match selects
`(placeList[i], priceList[i])`, anything else is an invalid code. -/
def tourLookup (code : String) : Option (String × Nat) :=
  if code = "1" then some ("Paris, France", 400000)
  else if code = "2" then some ("Tokyo, Japan", 600000)
  else if code = "3" then some ("Bangkok, Thailand", 250000)
  else if code = "4" then some ("Abu Dhabi, UAE", 380000)
  else if code = "5" then some ("Miami, USA", 120000)
  else if code = "6" then some ("Rome, Italy", 100000)
  else if code = "7" then some ("Munich, Germany", 300000)
  else if code = "8" then some ("Madrid, Spain", 320000)
  else if code = "9" then some ("Istanbul, Turkey", 450000)
  else if code = "10" then some ("Gilgit, Pakistan", 75000)
  else none

/-- `booking`, restricted to the located record of the logged-in user
(the C first walks the list to `currentUser`; the walk leaves other
records untouched).  In source order: the `price != 0.0` guard rejects a
second booking; an unconfirmed booking (`choice != '1'`) aborts; the
code chain maps the entered string or rejects it; then
`scanf("%d", &userptr->numberTicket)` writes the ticket count into the
record **before** the `numberTicket == 0` abort check; a nonzero count
completes the booking by storing the place and price. -/
def booking (r : User) (code : String) (choice : Char) (count : Int) :
    User × BookResult :=
  if r.price ≠ 0 then (r, .AlreadyBooked)
  else if choice ≠ '1' then (r, .NotConfirmed)
  else
    match tourLookup code with
    | none => (r, .InvalidTourCode)
    | some (pl, pr) =>
      let r1 : User := { r with numberTicket := count }
      if count = 0 then (r1, .ZeroTickets)
      else ({ r1 with place := pl, price := pr }, .Success)

/-- The number of binary digits of a natural number (`0` has none);
fuel-driven so that it evaluates by kernel reduction. -/
def bitsAux : Nat → Nat → Nat
  | 0, _ => 0
  | fuel + 1, n => if n = 0 then 0 else bitsAux fuel (n / 2) + 1

/-- Number of binary digits of `n`. -/
def bits (n : Nat) : Nat := bitsAux (n + 1) n

/-- Round a natural number to the nearest value with a 24-bit
significand — the value of the nearest IEEE-754 single-precision
`float`, round-to-nearest, ties-to-even (overflow to infinity is not
modelled: every amount this program can print is far below the
single-precision range). -/
def roundFloat (n : Nat) : Nat :=
  if n < 2 ^ 24 then n
  else
    let k := bits n - 24
    let q := n / 2 ^ k
    let r := n % 2 ^ k
    let half := 2 ^ (k - 1)
    if r < half then q * 2 ^ k
    else if half < r then (q + 1) * 2 ^ k
    else if q % 2 = 0 then q * 2 ^ k
    else (q + 1) * 2 ^ k

/-- Round an integer to the nearest single-precision value (IEEE
rounding is sign-symmetric). -/
def roundFloatInt (i : Int) : Int :=
  if i < 0 then -(roundFloat i.natAbs : Int) else (roundFloat i.natAbs : Int)

/-- The C expression `userptr->price * userptr->numberTicket` as the
program evaluates it: `price` is a `float` field (its stored value is
rounded to single precision), `numberTicket` an `int` that is converted
to `float`, and the product is computed in single precision
(`FLT_EVAL_METHOD == 0`): the exact product of the rounded operands,
rounded once more.  `printf "%.0f"` then prints this value exactly — a
product of integer-valued floats rounds to an integer-valued float. -/
def floatProd (price : Nat) (count : Int) : Int :=
  roundFloatInt ((roundFloat price : Int) * roundFloatInt count)

/-- `cancellation`, restricted to the located record: the if/else chain
compares `place` against the ten destination names (`flag` reaches `0`
exactly when one matches); on a match it reports the refund
`price * numberTicket` — computed in single-precision float — and
resets `place`/`price`/`numberTicket` to `"N/A"`/`0`/`0`; otherwise
"No tour has been booked to cancel!". -/
def cancellation (r : User) : User × CancelResult :=
  if placeList.contains r.place then
    ({ r with place := "N/A", price := 0, numberTicket := 0 },
     .Cancelled (floatProd r.price r.numberTicket))
  else (r, .NoActiveBooking)

/-- `changePassword`, restricted to the located record: the stored
password is overwritten only when the entered current password matches
exactly. -/
def changePassword (r : User) (cur new : String) : User :=
  if cur = r.password then { r with password := new } else r

/-- `checkTicket`, restricted to the located record: the booking is
reported absent when `place` is the empty string **or** `price == 0.0`
**or** `numberTicket == 0`; otherwise
`float total = price * numberTicket` is computed — the assignment
rounds the product to single precision — and printed. -/
def checkTicket (r : User) : TicketResult :=
  if r.place = "" ∨ r.price = 0 ∨ r.numberTicket = 0 then .NoActiveBooking
  else .Amount (floatProd r.price r.numberTicket)

/-- The spec's per-record booking invariant: `place` is the no-booking
sentinel `"N/A"` iff the price is `0` iff the ticket count is `0` (the
three fields form one atomic triple). -/
def inv (r : User) : Prop :=
  (r.place = "N/A" ↔ r.price = 0) ∧ (r.price = 0 ↔ r.numberTicket = 0)

instance (r : User) : Decidable (inv r) := by
  unfold inv; infer_instance

/-- The empty booking triple. -/
def tripleEmpty (r : User) : Prop :=
  r.place = "N/A" ∧ r.price = 0 ∧ r.numberTicket = 0

instance (r : User) : Decidable (tripleEmpty r) := by
  unfold tripleEmpty; infer_instance

/-- The spec's data-model domain for the `place` field: one of the fixed
destination names or the no-booking sentinel. -/
def placeWF (r : User) : Prop :=
  r.place ∈ placeList ∨ r.place = "N/A"

instance (r : User) : Decidable (placeWF r) := by
  unfold placeWF; infer_instance

/-! ## Serialization: `filing` (fprintf) and `initializeUser` (fscanf)

The file is modelled as a `List Char`.  `filing` writes, per record, the
five fields separated by single spaces and terminated by a newline
(`fprintf "%s %s %s %f %d\n"`); `%f` renders the (integral) price as its
decimal digits followed by `".000000"`, `%d` renders the ticket count in
decimal with a leading `-` when negative.  `initializeUser` repeatedly
applies `fscanf "%s %s %s %f %d"`: `%s` reads a maximal
whitespace-delimited token, `%f`/`%d` read a token as a number.  A
conversion failure (in the C: a short `fscanf` return with indeterminate
struct fields) is modelled as `none`; `%f` parsing is modelled for
decimal tokens with an all-zero fractional part, the only numeric shape
this program's own writer emits for the ℕ-modelled price. -/

/-- The decimal digit character for `d < 10` (printf digit emission). -/
def natDigitChar (d : Nat) : Char := Char.ofNat (48 + d)

/-- Fuel-driven decimal rendering of a natural number (most significant
digit first); `fuel > n` suffices. -/
def natReprAux : Nat → Nat → List Char
  | 0, _ => []
  | fuel + 1, n =>
    if n < 10 then [natDigitChar n]
    else natReprAux fuel (n / 10) ++ [natDigitChar (n % 10)]

/-- Decimal rendering of a natural number. -/
def natRepr (n : Nat) : List Char := natReprAux (n + 1) n

/-- `printf "%d"` for the modelled `int` ticket count. -/
def intRepr (n : Int) : List Char :=
  if n < 0 then '-' :: natRepr n.natAbs else natRepr n.toNat

/-- `printf "%f"` for the ℕ-modelled price: digits then `".000000"`. -/
def formatPrice (p : Nat) : List Char :=
  natRepr p ++ '.' :: List.replicate 6 '0'

/-- One output line of `filing`:
`username password place price ticketCount\n`. -/
def userLine (u : User) : List Char :=
  u.username.data ++ ' ' :: u.password.data ++ ' ' :: u.place.data ++
    ' ' :: formatPrice u.price ++ ' ' :: intRepr u.numberTicket ++ ['\n']

/-- `filing`: the whole store, one line per record, head first. -/
def filing : List User → List Char
  | [] => []
  | u :: rest => userLine u ++ filing rest

/-- The C whitespace class `scanf` skips between conversions. -/
def isWs (c : Char) : Bool :=
  c = ' ' || c = '\t' || c = '\n' || c = '\r' ||
    c = Char.ofNat 11 || c = Char.ofNat 12

/-- Whitespace tokenizer (the stream of `%s`-style tokens `fscanf` sees);
`acc` holds the current token's characters in reverse. -/
def tokenizeAux : List Char → List Char → List String
  | [], acc => if acc.isEmpty then [] else [String.mk acc.reverse]
  | c :: cs, acc =>
    if isWs c then
      if acc.isEmpty then tokenizeAux cs []
      else String.mk acc.reverse :: tokenizeAux cs []
    else tokenizeAux cs (c :: acc)

/-- The token stream of a file. -/
def tokenize (cs : List Char) : List String := tokenizeAux cs []

/-- The numeric value of a decimal digit character, if it is one. -/
def digitVal (c : Char) : Option Nat :=
  if 48 ≤ c.toNat ∧ c.toNat ≤ 57 then some (c.toNat - 48) else none

/-- Accumulating decimal reader over digit characters; fails at the
first non-digit. -/
def parseNatAux : List Char → Nat → Option Nat
  | [], acc => some acc
  | c :: cs, acc =>
    match digitVal c with
    | some d => parseNatAux cs (acc * 10 + d)
    | none => none

/-- A non-empty all-digit token as a natural number. -/
def parseNatDigits (cs : List Char) : Option Nat :=
  if cs.isEmpty then none else parseNatAux cs 0

/-- `fscanf "%f"` on one token, for the ℕ-modelled price: an optional
`.`-separated fractional part must be all zeros (the only shape this
program writes); any other token is a conversion failure. -/
def parsePrice (cs : List Char) : Option Nat :=
  match cs.dropWhile (fun c => c ≠ '.') with
  | [] => parseNatDigits cs
  | _ :: frac =>
    if frac.all (fun c => c = '0') then
      parseNatDigits (cs.takeWhile (fun c => c ≠ '.'))
    else none

/-- `fscanf "%d"` on one token: optional leading `-`, then digits. -/
def parseIntTok (cs : List Char) : Option Int :=
  match cs with
  | [] => none
  | c :: rest =>
    if c = '-' then (parseNatDigits rest).map (fun n => -(n : Int))
    else (parseNatDigits (c :: rest)).map (fun n => (n : Int))

/-- The `fscanf` loop of `initializeUser` over the token stream: five
tokens per record (`username password place price ticketCount`);
`none` models a conversion failure (the C would loop on with
indeterminate fields) or a trailing short record. -/
def parseUsers : List String → Option (List User)
  | [] => some []
  | u :: p :: pl :: pr :: t :: rest =>
    match parsePrice pr.data, parseIntTok t.data with
    | some price, some tick =>
      (parseUsers rest).map
        (fun us => { username := u, password := p, place := pl,
                     price := price, numberTicket := tick } :: us)
    | _, _ => none
  | _ => none

/-- `initializeUser`: read the whole file back into a store (an empty or
missing file yields the empty store). -/
def initializeUser (file : List Char) : Option (List User) :=
  parseUsers (tokenize file)

/-- A field value that serializes losslessly in the legacy format: a
non-empty string with no C whitespace characters. -/
def goodStr (s : String) : Prop :=
  s.data ≠ [] ∧ ∀ c ∈ s.data, isWs c = false

instance (s : String) : Decidable (goodStr s) := by
  unfold goodStr; infer_instance

/-- All three string fields of a record serialize losslessly. -/
def goodRec (u : User) : Prop :=
  goodStr u.username ∧ goodStr u.password ∧ goodStr u.place

instance (u : User) : Decidable (goodRec u) := by
  unfold goodRec; infer_instance

/-! ### Tokenizer lemmas -/

theorem tokenizeAux_no_ws (w : List Char) (hw : ∀ c ∈ w, isWs c = false) :
    ∀ cs acc, tokenizeAux (w ++ cs) acc = tokenizeAux cs (w.reverse ++ acc) := by
  induction w with
  | nil => intro cs acc; simp
  | cons c w ih =>
    intro cs acc
    have hc : isWs c = false := hw c (by simp)
    have hw2 : ∀ x ∈ w, isWs x = false := fun x hx => hw x (by simp [hx])
    simp only [List.cons_append, tokenizeAux, hc, Bool.false_eq_true, if_false,
      List.append_eq]
    rw [ih hw2]
    simp

theorem tokenizeAux_ws (c : Char) (hc : isWs c = true) (cs : List Char)
    (acc : List Char) (ha : acc ≠ []) :
    tokenizeAux (c :: cs) acc = String.mk acc.reverse :: tokenizeAux cs [] := by
  have : acc.isEmpty = false := by
    cases acc with
    | nil => exact absurd rfl ha
    | cons x xs => rfl
  simp [tokenizeAux, hc, this]

theorem tokenize_word (w : List Char) (hne : w ≠ [])
    (hw : ∀ c ∈ w, isWs c = false) (c : Char) (hc : isWs c = true)
    (cs : List Char) :
    tokenizeAux (w ++ c :: cs) [] = String.mk w :: tokenizeAux cs [] := by
  rw [tokenizeAux_no_ws w hw, List.append_nil,
    tokenizeAux_ws c hc cs w.reverse (by simpa using hne), List.reverse_reverse]

/-! ### Decimal rendering and parsing lemmas -/

theorem natDigitChar_spec (d : Nat) (hd : d < 10) :
    digitVal (natDigitChar d) = some d ∧ isWs (natDigitChar d) = false ∧
      natDigitChar d ≠ '.' ∧ natDigitChar d ≠ '-' := by
  interval_cases d <;> exact ⟨rfl, rfl, by decide, by decide⟩

theorem natReprAux_digits (fuel n : Nat) :
    ∀ c ∈ natReprAux fuel n, ∃ d, d < 10 ∧ c = natDigitChar d := by
  induction fuel generalizing n with
  | zero => intro c hc; simp [natReprAux] at hc
  | succ fuel ih =>
    intro c hc
    by_cases h : n < 10
    · simp only [natReprAux, h, if_true, List.mem_singleton] at hc
      exact ⟨n, h, hc⟩
    · simp only [natReprAux, h, if_false, List.mem_append, List.mem_singleton] at hc
      rcases hc with hc | hc
      · exact ih (n / 10) c hc
      · exact ⟨n % 10, Nat.mod_lt _ (by omega), hc⟩

theorem parseNatAux_append (xs ys : List Char) (acc : Nat) :
    parseNatAux (xs ++ ys) acc =
      (parseNatAux xs acc).bind (fun m => parseNatAux ys m) := by
  induction xs generalizing acc with
  | nil => simp [parseNatAux]
  | cons c xs ih =>
    simp only [List.cons_append, parseNatAux]
    cases digitVal c with
    | none => rfl
    | some d => exact ih (acc * 10 + d)

theorem natReprAux_spec (fuel : Nat) :
    ∀ n, n < fuel → natReprAux fuel n ≠ [] ∧
      ∀ acc, parseNatAux (natReprAux fuel n) acc =
        some (acc * 10 ^ (natReprAux fuel n).length + n) := by
  induction fuel with
  | zero => intro n hn; omega
  | succ fuel ih =>
    intro n hn
    by_cases h : n < 10
    · refine ⟨by simp [natReprAux, h], fun acc => ?_⟩
      simp [natReprAux, h, parseNatAux, (natDigitChar_spec n h).1]
    · have hdiv : n / 10 < n := Nat.div_lt_self (by omega) (by omega)
      have hfuel : n / 10 < fuel := by omega
      obtain ⟨hne, hspec⟩ := ih (n / 10) hfuel
      refine ⟨by simp [natReprAux, h], fun acc => ?_⟩
      simp only [natReprAux, h, if_false, parseNatAux_append, hspec,
        Option.some_bind, parseNatAux,
        (natDigitChar_spec (n % 10) (Nat.mod_lt _ (by omega))).1,
        List.length_append]
      congr 1
      have hlen : ((natReprAux fuel (n / 10)).length + [natDigitChar (n % 10)].length)
          = (natReprAux fuel (n / 10)).length + 1 := by simp
      rw [hlen, pow_succ]
      calc (acc * 10 ^ (natReprAux fuel (n / 10)).length + n / 10) * 10 + n % 10
          = acc * (10 ^ (natReprAux fuel (n / 10)).length * 10) +
              (10 * (n / 10) + n % 10) := by ring
        _ = acc * (10 ^ (natReprAux fuel (n / 10)).length * 10) + n := by
            rw [Nat.div_add_mod]

theorem natRepr_ne_nil (n : Nat) : natRepr n ≠ [] :=
  (natReprAux_spec (n + 1) n (by omega)).1

theorem natRepr_digits (n : Nat) :
    ∀ c ∈ natRepr n, ∃ d, d < 10 ∧ c = natDigitChar d :=
  natReprAux_digits (n + 1) n

theorem parseNatDigits_natRepr (n : Nat) : parseNatDigits (natRepr n) = some n := by
  have h := (natReprAux_spec (n + 1) n (by omega)).2 0
  have hne := natRepr_ne_nil n
  have hempty : (natRepr n).isEmpty = false := by
    cases hx : natRepr n with
    | nil => exact absurd hx hne
    | cons c cs => rfl
  simp only [parseNatDigits, hempty, Bool.false_eq_true, if_false, natRepr] at *
  rw [h]
  simp

theorem takeWhile_append_stop (p : Char → Bool) (xs : List Char) (y : Char)
    (ys : List Char) (hx : ∀ x ∈ xs, p x = true) (hy : p y = false) :
    (xs ++ y :: ys).takeWhile p = xs := by
  induction xs with
  | nil => simp [List.takeWhile, hy]
  | cons a xs ih =>
    have ha : p a = true := hx a (by simp)
    have hx2 : ∀ x ∈ xs, p x = true := fun x h => hx x (by simp [h])
    simp [List.takeWhile, ha, ih hx2]

theorem dropWhile_append_stop (p : Char → Bool) (xs : List Char) (y : Char)
    (ys : List Char) (hx : ∀ x ∈ xs, p x = true) (hy : p y = false) :
    (xs ++ y :: ys).dropWhile p = y :: ys := by
  induction xs with
  | nil => simp [List.dropWhile, hy]
  | cons a xs ih =>
    have ha : p a = true := hx a (by simp)
    have hx2 : ∀ x ∈ xs, p x = true := fun x h => hx x (by simp [h])
    simp [List.dropWhile, ha, ih hx2]

theorem parsePrice_formatPrice (n : Nat) : parsePrice (formatPrice n) = some n := by
  have hx : ∀ x ∈ natRepr n, (fun c => decide (c ≠ '.')) x = true := by
    intro x hx
    obtain ⟨d, hd, rfl⟩ := natRepr_digits n x hx
    simpa using (natDigitChar_spec d hd).2.2.1
  have hy : (fun c => decide (c ≠ '.')) '.' = false := by simp
  unfold parsePrice formatPrice
  rw [dropWhile_append_stop _ _ _ _ hx hy, takeWhile_append_stop _ _ _ _ hx hy]
  simp [parseNatDigits_natRepr]

theorem parseIntTok_intRepr (n : Int) : parseIntTok (intRepr n) = some n := by
  by_cases h : n < 0
  · have hrepr : intRepr n = '-' :: natRepr n.natAbs := by rw [intRepr, if_pos h]
    have hstep : parseIntTok ('-' :: natRepr n.natAbs)
        = (parseNatDigits (natRepr n.natAbs)).map (fun m => -(m : Int)) := by
      simp [parseIntTok]
    rw [hrepr, hstep, parseNatDigits_natRepr]
    simp
    rw [abs_of_nonpos (by omega : n ≤ 0)]
    ring
  · cases heq : natRepr n.toNat with
    | nil => exact absurd heq (natRepr_ne_nil _)
    | cons c cs =>
      have hc : c ∈ natRepr n.toNat := by rw [heq]; simp
      obtain ⟨d, hd, hcd⟩ := natRepr_digits n.toNat c hc
      have hne : ¬(c = '-') := by
        rw [hcd]; exact (natDigitChar_spec d hd).2.2.2
      have hrepr : intRepr n = c :: cs := by rw [intRepr, if_neg h, heq]
      have hstep : parseIntTok (c :: cs)
          = (parseNatDigits (c :: cs)).map (fun m => (m : Int)) := by
        simp [parseIntTok, hne]
      rw [hrepr, hstep, ← heq, parseNatDigits_natRepr]
      simp
      omega

theorem formatPrice_no_ws (n : Nat) : ∀ c ∈ formatPrice n, isWs c = false := by
  intro c hc
  simp only [formatPrice, List.mem_append, List.mem_cons] at hc
  rcases hc with hc | hc | hc
  · obtain ⟨d, hd, rfl⟩ := natRepr_digits n c hc
    exact (natDigitChar_spec d hd).2.1
  · subst hc; decide
  · rw [List.eq_of_mem_replicate hc]; decide

theorem formatPrice_ne_nil (n : Nat) : formatPrice n ≠ [] := by
  unfold formatPrice
  intro h
  exact natRepr_ne_nil n (List.append_eq_nil.1 h).1

theorem intRepr_no_ws (n : Int) : ∀ c ∈ intRepr n, isWs c = false := by
  intro c hc
  unfold intRepr at hc
  by_cases h : n < 0
  · simp only [h, if_true, List.mem_cons] at hc
    rcases hc with hc | hc
    · subst hc; decide
    · obtain ⟨d, hd, rfl⟩ := natRepr_digits n.natAbs c hc
      exact (natDigitChar_spec d hd).2.1
  · simp only [h, if_false] at hc
    obtain ⟨d, hd, rfl⟩ := natRepr_digits n.toNat c hc
    exact (natDigitChar_spec d hd).2.1

theorem intRepr_ne_nil (n : Int) : intRepr n ≠ [] := by
  unfold intRepr
  by_cases h : n < 0
  · simp [h]
  · simp only [h, if_false]
    exact natRepr_ne_nil _

theorem data_mk (cs : List Char) : (String.mk cs).data = cs := rfl

theorem tokenize_userLine (u : User) (rest : List Char) (hg : goodRec u) :
    tokenize (userLine u ++ rest) =
      u.username :: u.password :: u.place ::
        String.mk (formatPrice u.price) :: String.mk (intRepr u.numberTicket) ::
          tokenize rest := by
  obtain ⟨⟨h1ne, h1ws⟩, ⟨h2ne, h2ws⟩, ⟨h3ne, h3ws⟩⟩ := hg
  have hsp : isWs ' ' = true := by decide
  have hnl : isWs '\n' = true := by decide
  show tokenizeAux (userLine u ++ rest) [] = _
  have hshape : userLine u ++ rest =
      u.username.data ++ ' ' :: (u.password.data ++ ' ' :: (u.place.data ++
        ' ' :: (formatPrice u.price ++ ' ' :: (intRepr u.numberTicket ++
          '\n' :: rest)))) := by
    simp [userLine, List.append_assoc]
  rw [hshape,
    tokenize_word _ h1ne h1ws ' ' hsp _,
    tokenize_word _ h2ne h2ws ' ' hsp _,
    tokenize_word _ h3ne h3ws ' ' hsp _,
    tokenize_word _ (formatPrice_ne_nil u.price) (formatPrice_no_ws u.price) ' ' hsp _,
    tokenize_word _ (intRepr_ne_nil u.numberTicket) (intRepr_no_ws u.numberTicket) '\n' hnl _]
  rfl

/-- **Round-trip law for whitespace-free fields**: loading back the file
written by `filing` reproduces the store exactly, provided every string
field is non-empty and free of whitespace. -/
theorem initializeUser_filing (s : List User) (h : ∀ u ∈ s, goodRec u) :
    initializeUser (filing s) = some s := by
  induction s with
  | nil => rfl
  | cons u s ih =>
    have hu := h u (by simp)
    have hs : ∀ v ∈ s, goodRec v := fun v hv => h v (by simp [hv])
    show parseUsers (tokenize (userLine u ++ filing s)) = _
    rw [tokenize_userLine u (filing s) hu]
    show parseUsers (_ :: _ :: _ :: _ :: _ :: tokenize (filing s)) = _
    simp only [parseUsers, data_mk, parsePrice_formatPrice, parseIntTok_intRepr]
    have ihs : parseUsers (tokenize (filing s)) = some s := ih hs
    rw [ihs]
    rfl

/-! ### Helper lemmas about the operations -/

theorem tourLookup_spec {code : String} {pl : String} {pr : Nat}
    (h : tourLookup code = some (pl, pr)) :
    pl ∈ placeList ∧ pl ≠ "N/A" ∧ pr ≠ 0 := by
  unfold tourLookup at h
  split_ifs at h <;>
    (simp only [Option.some_inj, Prod.mk.injEq] at h
     obtain ⟨h1, h2⟩ := h
     subst h1; subst h2
     exact ⟨by decide, by decide, by decide⟩)

theorem booking_success_eq {r : User} {code : String} {choice : Char} {count : Int}
    (h : (booking r code choice count).2 = .Success) :
    ∃ pl pr, tourLookup code = some (pl, pr) ∧ count ≠ 0 ∧
      (booking r code choice count).1
        = { r with place := pl, price := pr, numberTicket := count } := by
  unfold booking at h ⊢
  by_cases h1 : r.price ≠ 0
  · rw [if_pos h1] at h; exact absurd h (by simp)
  · rw [if_neg h1] at h ⊢
    by_cases h2 : choice ≠ '1'
    · rw [if_pos h2] at h; exact absurd h (by simp)
    · rw [if_neg h2] at h ⊢
      cases hcode : tourLookup code with
      | none => rw [hcode] at h; exact absurd h (by simp)
      | some pp =>
        obtain ⟨pl, pr⟩ := pp
        rw [hcode] at h
        by_cases h4 : count = 0
        · simp [h4] at h
        · refine ⟨pl, pr, rfl, h4, ?_⟩
          simp only [if_neg h4]

theorem booking_unchanged_cases (r : User) (code : String) (choice : Char)
    (count : Int) :
    (r.price ≠ 0 → booking r code choice count = (r, .AlreadyBooked)) := by
  intro h1
  unfold booking
  rw [if_pos h1]

theorem contains_placeList {s : String} (h : s ∈ placeList) :
    placeList.contains s = true := by
  simpa [List.contains] using h

theorem not_contains_placeList {s : String} (h : s ∉ placeList) :
    placeList.contains s = false := by
  simpa [List.contains] using h

theorem roundFloat_small {n : Nat} (h : n < 2 ^ 24) : roundFloat n = n := by
  unfold roundFloat
  rw [if_pos h]

theorem roundFloatInt_small {i : Int} (h : i.natAbs < 2 ^ 24) :
    roundFloatInt i = i := by
  unfold roundFloatInt
  rw [roundFloat_small h]
  by_cases hi : i < 0
  · rw [if_pos hi]
    omega
  · rw [if_neg hi]
    omega

/-- Below `2^24` every intermediate value is exactly representable in
single precision, so the float product agrees with the exact integer
product. -/
theorem floatProd_exact (price : Nat) (count : Int)
    (h : price * count.natAbs < 2 ^ 24) :
    floatProd price count = (price : Int) * count := by
  unfold floatProd
  by_cases hc : count = 0
  · subst hc
    rw [roundFloatInt_small (by decide : (0 : Int).natAbs < 2 ^ 24), mul_zero,
      roundFloatInt_small (by decide : (0 : Int).natAbs < 2 ^ 24), mul_zero]
  · by_cases hp : price = 0
    · subst hp
      rw [roundFloat_small (by decide), Nat.cast_zero, zero_mul, zero_mul,
        roundFloatInt_small (by decide : (0 : Int).natAbs < 2 ^ 24)]
    · have h1 : 1 ≤ price := Nat.one_le_iff_ne_zero.2 hp
      have h2 : 1 ≤ count.natAbs := by omega
      have hpr : price < 2 ^ 24 := by
        have : price * 1 ≤ price * count.natAbs := Nat.mul_le_mul_left price h2
        omega
      have hcn : count.natAbs < 2 ^ 24 := by
        have : 1 * count.natAbs ≤ price * count.natAbs := Nat.mul_le_mul_right _ h1
        omega
      have hmul : ((price : Int) * count).natAbs < 2 ^ 24 := by
        rw [Int.natAbs_mul, Int.natAbs_ofNat]
        exact h
      rw [roundFloat_small hpr, roundFloatInt_small hcn, roundFloatInt_small hmul]

/-! ## Claim theorems -/

/-- C1 (counterexample): a store holding one booked record whose place
`"Paris, France"` contains an embedded space does **not** round-trip:
writing it with `filing` and reading back with `initializeUser` fails
(the `%s` tokens misalign and `%f` hits the token `"France"`), so Load
does not reproduce the store. -/
theorem C1_roundtrip_counterexample :
    initializeUser (filing [⟨"u", "p", "Paris, France", 400000, 2⟩])
        ≠ some [⟨"u", "p", "Paris, France", 400000, 2⟩] ∧
      initializeUser (filing [⟨"u", "p", "Paris, France", 400000, 2⟩]) = none := by
  decide

/-- C1 (amended): Save (`filing`) followed by Load (`initializeUser`)
reproduces the store exactly — same records, same order, same field
values — provided every `username`, `password` and `place` field is
non-empty and contains no whitespace; a field with an embedded space
(any booked place, or a password with spaces) breaks the round-trip. -/
theorem C1_roundtrip_amended (s : List User) (h : ∀ u ∈ s, goodRec u) :
    initializeUser (filing s) = some s :=
  initializeUser_filing s h

/-- Witness for `C1_roundtrip_amended` at a concrete two-record store. -/
theorem C1_roundtrip_amended_witness :
    (∀ u ∈ ([⟨"alice", "pw1", "N/A", 0, 0⟩, ⟨"bob", "pw2", "N/A", 0, 0⟩] :
        List User), goodRec u) ∧
      initializeUser (filing
          [⟨"alice", "pw1", "N/A", 0, 0⟩, ⟨"bob", "pw2", "N/A", 0, 0⟩])
        = some [⟨"alice", "pw1", "N/A", 0, 0⟩, ⟨"bob", "pw2", "N/A", 0, 0⟩] :=
  ⟨by decide, C1_roundtrip_amended _ (by decide)⟩

/-- C2 (counterexample): with an empty booking triple and the valid tour
code `"1"`, a requested ticket count of `-1 ≤ 0` is **not** rejected:
`booking` only aborts when the count equals `0`
(`if (userptr->numberTicket == 0) return;`), so the negative count books
successfully and is stored in the record. -/
theorem C2_zero_tickets_counterexample :
    (-1 : Int) ≤ 0 ∧
      booking ⟨"u", "p", "N/A", 0, 0⟩ "1" '1' (-1)
        = (⟨"u", "p", "Paris, France", 400000, -1⟩, .Success) := by
  decide

/-- C2 (amended): for a record with an empty booking triple and a valid,
confirmed tour code, `booking` fails (with the spec's `ZeroTickets`) and
leaves the record unchanged exactly when the requested count equals `0`;
for any non-zero count — negative counts included — it sets the booking
triple from the catalog entry and the count. -/
theorem C2_zero_tickets_amended (r : User) (code pl : String) (pr : Nat)
    (count : Int) (hempty : tripleEmpty r)
    (hcode : tourLookup code = some (pl, pr)) :
    (count = 0 → booking r code '1' count = (r, .ZeroTickets)) ∧
    (count ≠ 0 → booking r code '1' count
      = ({ r with place := pl, price := pr, numberTicket := count }, .Success)) := by
  obtain ⟨hplace, hprice, htick⟩ := hempty
  have h1 : ¬ (r.price ≠ 0) := by simp [hprice]
  have h2 : ¬ (('1' : Char) ≠ '1') := by simp
  constructor
  · intro h0
    subst h0
    unfold booking
    rw [if_neg h1, if_neg h2, hcode]
    have hr : ({ r with numberTicket := 0 } : User) = r := by
      cases r
      simp_all
    simp [hr]
  · intro h0
    unfold booking
    rw [if_neg h1, if_neg h2, hcode]
    simp only [if_neg h0]

/-- Witness for `C2_zero_tickets_amended`: booking tour 3 with 2 tickets
from an empty record succeeds and stores the Bangkok catalog entry. -/
theorem C2_zero_tickets_amended_witness :
    tripleEmpty (⟨"u", "p", "N/A", 0, 0⟩ : User) ∧
      tourLookup "3" = some ("Bangkok, Thailand", 250000) ∧
      booking ⟨"u", "p", "N/A", 0, 0⟩ "3" '1' 2
        = (⟨"u", "p", "Bangkok, Thailand", 250000, 2⟩, .Success) :=
  ⟨by decide, by decide,
    (C2_zero_tickets_amended ⟨"u", "p", "N/A", 0, 0⟩ "3" "Bangkok, Thailand"
      250000 2 (by decide) (by decide)).2 (by decide)⟩

/-- C3 (counterexample): Load does **not** preserve the booking
invariant.  A single invariant-satisfying record whose password contains
the embedded tokens `"N/A 0.000000 5 v w"` serializes to a line whose
whitespace tokens regroup on load into two records, the first of which
has the sentinel place and price `0` but ticket count `5` — violating
`place = "N/A" ↔ price = 0 ↔ ticketCount = 0`. -/
theorem C3_invariant_counterexample :
    inv (⟨"u", "p N/A 0.000000 5 v w", "N/A", 0, 0⟩ : User) ∧
      initializeUser (filing [⟨"u", "p N/A 0.000000 5 v w", "N/A", 0, 0⟩])
        = some [⟨"u", "p", "N/A", 0, 5⟩, ⟨"v", "w", "N/A", 0, 0⟩] ∧
      ¬ inv (⟨"u", "p", "N/A", 0, 5⟩ : User) := by
  decide

/-- C3 (amended): the in-memory operations — Register (`addUser`), Book
(`booking`), Cancel (`cancellation`), ChangePassword — preserve the
per-record invariant `place = "N/A" ↔ price = 0 ↔ ticketCount = 0`, and
Load (`initializeUser`) after Save (`filing`) preserves it provided
every string field is non-empty and whitespace-free; without that
proviso Load can produce invariant-violating records. -/
theorem C3_invariant_amended (s : List User) (uname pwd : String) (r : User)
    (code : String) (choice : Char) (count : Int) (cur new : String) :
    ((∀ u ∈ s, inv u) → ∀ u ∈ (addUser s uname pwd).1, inv u) ∧
    (inv r → inv (booking r code choice count).1) ∧
    (inv r → inv (cancellation r).1) ∧
    (inv r → inv (changePassword r cur new)) ∧
    ((∀ u ∈ s, goodRec u) → (∀ u ∈ s, inv u) →
      ∀ s2, initializeUser (filing s) = some s2 → ∀ u ∈ s2, inv u) := by
  refine ⟨?_, ?_, ?_, ?_, ?_⟩
  · intro hs u hu
    unfold addUser at hu
    by_cases hd : s.any (fun v => v.username = uname)
    · rw [if_pos hd] at hu
      exact hs u hu
    · rw [if_neg hd] at hu
      simp only [List.mem_append, List.mem_singleton] at hu
      rcases hu with hu | hu
      · exact hs u hu
      · subst hu
        exact ⟨by simp, by simp⟩
  · intro hr
    by_cases hb : (booking r code choice count).2 = .Success
    · obtain ⟨pl, pr, hcode, hcnt, heq⟩ := booking_success_eq hb
      obtain ⟨hin, hpl, hpr⟩ := tourLookup_spec hcode
      rw [heq]
      exact ⟨by simp [hpl, hpr], by simp [hpr, hcnt]⟩
    · -- every non-Success path leaves the record unchanged
      unfold booking at hb ⊢
      by_cases h1 : r.price ≠ 0
      · rw [if_pos h1]
        exact hr
      · rw [if_neg h1] at hb ⊢
        by_cases h2 : choice ≠ '1'
        · rw [if_pos h2]
          exact hr
        · rw [if_neg h2] at hb ⊢
          cases hcode : tourLookup code with
          | none => exact hr
          | some pp =>
            obtain ⟨pl, pr⟩ := pp
            rw [hcode] at hb
            by_cases h4 : count = 0
            · simp only [if_pos h4]
              have h0 : r.price = 0 := by omega
              have ht : r.numberTicket = 0 := (hr.2).1 h0
              have : ({ r with numberTicket := count } : User) = r := by
                cases r
                simp_all
              rw [this]
              exact hr
            · exact absurd (by simp [if_neg h4]) hb
  · intro hr
    unfold cancellation
    by_cases hc : placeList.contains r.place
    · rw [if_pos hc]
      exact ⟨by simp, by simp⟩
    · rw [if_neg hc]
      exact hr
  · intro hr
    unfold changePassword
    by_cases hc : cur = r.password
    · rw [if_pos hc]
      exact ⟨hr.1, hr.2⟩
    · rw [if_neg hc]
      exact hr
  · intro hgood hinv s2 hload u hu
    rw [initializeUser_filing s hgood] at hload
    obtain rfl : s = s2 := by injection hload
    exact hinv u hu

/-- Witness for `C3_invariant_amended`: each conjunct instantiated at a
concrete store, record and inputs. -/
theorem C3_invariant_amended_witness :
    (∀ u ∈ (addUser [⟨"a", "x", "N/A", 0, 0⟩] "b" "y").1, inv u) ∧
    inv (booking ⟨"a", "x", "N/A", 0, 0⟩ "1" '1' 2).1 ∧
    inv (cancellation ⟨"a", "x", "Paris, France", 400000, 2⟩).1 ∧
    inv (changePassword ⟨"a", "x", "N/A", 0, 0⟩ "x" "z") ∧
    (∀ u ∈ ([⟨"a", "x", "N/A", 0, 0⟩] : List User), inv u) :=
  ⟨(C3_invariant_amended [⟨"a", "x", "N/A", 0, 0⟩] "b" "y"
      ⟨"a", "x", "N/A", 0, 0⟩ "1" '1' 2 "x" "z").1 (by decide),
   (C3_invariant_amended [⟨"a", "x", "N/A", 0, 0⟩] "b" "y"
      ⟨"a", "x", "N/A", 0, 0⟩ "1" '1' 2 "x" "z").2.1 (by decide),
   (C3_invariant_amended [⟨"a", "x", "N/A", 0, 0⟩] "b" "y"
      ⟨"a", "x", "Paris, France", 400000, 2⟩ "1" '1' 2 "x" "z").2.2.1 (by decide),
   (C3_invariant_amended [⟨"a", "x", "N/A", 0, 0⟩] "b" "y"
      ⟨"a", "x", "N/A", 0, 0⟩ "1" '1' 2 "x" "z").2.2.2.1 (by decide),
   (C3_invariant_amended [⟨"a", "x", "N/A", 0, 0⟩] "b" "y"
      ⟨"a", "x", "N/A", 0, 0⟩ "1" '1' 2 "x" "z").2.2.2.2 (by decide) (by decide)
      [⟨"a", "x", "N/A", 0, 0⟩] (by decide)⟩

/-- C4: the store value `login` returns (and `main` installs as the new
list head) is the empty list (`NULL`) when no record carries the
username, and is the matched user's node — the suffix of the store from
the first record with that username — when the username is found,
whether the password is right or wrong; all records preceding the match
(or the whole store on a miss) are dropped. -/
theorem C4_login_newhead (s : List User) (uname pwd : String) :
    ((∀ u ∈ s, u.username ≠ uname) → login s uname pwd = ([], .UserNotFound)) ∧
    (∀ pre u suf, s = pre ++ u :: suf → (∀ v ∈ pre, v.username ≠ uname) →
      u.username = uname → (login s uname pwd).1 = u :: suf) := by
  constructor
  · intro hall
    induction s with
    | nil => rfl
    | cons v rest ih =>
      have hv : v.username ≠ uname := hall v (by simp)
      unfold login
      rw [if_neg hv]
      exact ih (fun u hu => hall u (by simp [hu]))
  · intro pre u suf hs hpre hu
    subst hs
    induction pre with
    | nil =>
      rw [List.nil_append]
      simp only [login, if_pos hu]
      by_cases hp : u.password = pwd
      · rw [if_pos hp]
      · rw [if_neg hp]
    | cons v pre ih =>
      have hv : v.username ≠ uname := hpre v (by simp)
      rw [List.cons_append]
      simp only [login, if_neg hv]
      exact ih (fun w hw => hpre w (by simp [hw]))

/-- Witness for `C4_login_newhead`: a miss empties the store; a match on
the second record (with a wrong password) drops the first record. -/
theorem C4_login_newhead_witness :
    login ([⟨"a", "x", "N/A", 0, 0⟩, ⟨"b", "y", "N/A", 0, 0⟩] : List User)
        "c" "z" = ([], .UserNotFound) ∧
      (login ([⟨"a", "x", "N/A", 0, 0⟩, ⟨"b", "y", "N/A", 0, 0⟩] : List User)
        "b" "wrong").1 = [⟨"b", "y", "N/A", 0, 0⟩] :=
  ⟨(C4_login_newhead _ "c" "z").1 (by decide),
   (C4_login_newhead _ "b" "wrong").2 [⟨"a", "x", "N/A", 0, 0⟩]
     ⟨"b", "y", "N/A", 0, 0⟩ [] rfl (by decide) rfl⟩

/-- C5: registering a username already present in the store
(case-sensitive exact match) fails with `DuplicateUsername` and returns
the store unchanged — no record added, removed or modified. -/
theorem C5_duplicate_register (s : List User) (uname pwd : String)
    (h : ∃ r ∈ s, r.username = uname) :
    addUser s uname pwd = (s, .DuplicateUsername) := by
  unfold addUser
  rw [if_pos]
  simp only [List.any_eq_true, decide_eq_true_eq]
  exact h

/-- Witness for `C5_duplicate_register`: re-registering `"bob"`. -/
theorem C5_duplicate_register_witness :
    (∃ r ∈ ([⟨"alice", "x", "N/A", 0, 0⟩, ⟨"bob", "y", "N/A", 0, 0⟩] :
        List User), r.username = "bob") ∧
      addUser [⟨"alice", "x", "N/A", 0, 0⟩, ⟨"bob", "y", "N/A", 0, 0⟩] "bob" "z"
        = ([⟨"alice", "x", "N/A", 0, 0⟩, ⟨"bob", "y", "N/A", 0, 0⟩],
           .DuplicateUsername) :=
  ⟨by decide, C5_duplicate_register _ "bob" "z" (by decide)⟩

/-- C6: when some record carries the username but none carrying it has
the attempted password, `login` reports `WrongPassword` — never
`UserNotFound`. -/
theorem C6_wrong_password (s : List User) (uname pwd : String)
    (hex : ∃ r ∈ s, r.username = uname)
    (hpw : ∀ r ∈ s, r.username = uname → r.password ≠ pwd) :
    (login s uname pwd).2 = .WrongPassword := by
  induction s with
  | nil => simp at hex
  | cons u rest ih =>
    by_cases hu : u.username = uname
    · have hp : u.password ≠ pwd := hpw u (by simp) hu
      simp only [login, if_pos hu, if_neg hp]
    · simp only [login, if_neg hu]
      refine ih ?_ (fun r hr => hpw r (by simp [hr]))
      obtain ⟨r, hr, hru⟩ := hex
      rcases List.mem_cons.1 hr with rfl | hr2
      · exact absurd hru hu
      · exact ⟨r, hr2, hru⟩

/-- Witness for `C6_wrong_password`: wrong password for `"bob"`. -/
theorem C6_wrong_password_witness :
    (∃ r ∈ ([⟨"alice", "x", "N/A", 0, 0⟩, ⟨"bob", "y", "N/A", 0, 0⟩] :
        List User), r.username = "bob") ∧
      (∀ r ∈ ([⟨"alice", "x", "N/A", 0, 0⟩, ⟨"bob", "y", "N/A", 0, 0⟩] :
        List User), r.username = "bob" → r.password ≠ "wrong") ∧
      (login [⟨"alice", "x", "N/A", 0, 0⟩, ⟨"bob", "y", "N/A", 0, 0⟩]
        "bob" "wrong").2 = .WrongPassword :=
  ⟨by decide, by decide,
    C6_wrong_password _ "bob" "wrong" (by decide) (by decide)⟩

/-- C7: when registration succeeds, authenticating with the same
(username, password) pair on the resulting store returns `Success`, and
the store `login` hands back starts exactly at the record `addUser`
inserted (the fresh record with empty booking fields, appended at the
tail). -/
theorem C7_register_then_login (s : List User) (uname pwd : String)
    (h : (addUser s uname pwd).2 = .Success) :
    login (addUser s uname pwd).1 uname pwd
      = ([⟨uname, pwd, "N/A", 0, 0⟩], .Success) := by
  have hno : ¬ s.any (fun u => u.username = uname) := by
    intro hc
    unfold addUser at h
    rw [if_pos hc] at h
    exact absurd h (by simp)
  have hall : ∀ r ∈ s, r.username ≠ uname := by
    intro r hr
    simp only [List.any_eq_true, decide_eq_true_eq, not_exists] at hno
    intro he
    exact (hno r) ⟨hr, he⟩
  have hstore : (addUser s uname pwd).1 = s ++ [⟨uname, pwd, "N/A", 0, 0⟩] := by
    unfold addUser
    rw [if_neg hno]
  rw [hstore]
  clear h hno hstore
  induction s with
  | nil =>
    simp [login]
  | cons u rest ih =>
    have hu : u.username ≠ uname := hall u (by simp)
    rw [List.cons_append]
    simp only [login, if_neg hu]
    exact ih (fun r hr => hall r (by simp [hr]))

/-- Witness for `C7_register_then_login`: register `"carol"` into a
one-record store, then log in as `"carol"`. -/
theorem C7_register_then_login_witness :
    (addUser [⟨"alice", "x", "N/A", 0, 0⟩] "carol" "pw").2 = .Success ∧
      login (addUser [⟨"alice", "x", "N/A", 0, 0⟩] "carol" "pw").1 "carol" "pw"
        = ([⟨"carol", "pw", "N/A", 0, 0⟩], .Success) :=
  ⟨by decide, C7_register_then_login _ "carol" "pw" (by decide)⟩

/-- C8: after a successful `booking`, a second `booking` on the booked
record — with any tour code, confirmation and count — fails on the
`price != 0.0` guard with `AlreadyBooked` and leaves the record
unchanged. -/
theorem C8_book_twice (r : User) (code : String) (choice : Char) (count : Int)
    (code2 : String) (choice2 : Char) (count2 : Int)
    (h : (booking r code choice count).2 = .Success) :
    booking (booking r code choice count).1 code2 choice2 count2
      = ((booking r code choice count).1, .AlreadyBooked) := by
  obtain ⟨pl, pr, hcode, hcnt, heq⟩ := booking_success_eq h
  obtain ⟨hin, hpl, hpr⟩ := tourLookup_spec hcode
  apply booking_unchanged_cases
  rw [heq]
  exact hpr

/-- Witness for `C8_book_twice`: book tour 2, then try to book tour 5. -/
theorem C8_book_twice_witness :
    (booking ⟨"u", "p", "N/A", 0, 0⟩ "2" '1' 3).2 = .Success ∧
      booking (booking ⟨"u", "p", "N/A", 0, 0⟩ "2" '1' 3).1 "5" '1' 1
        = ((booking ⟨"u", "p", "N/A", 0, 0⟩ "2" '1' 3).1, .AlreadyBooked) :=
  ⟨by decide, C8_book_twice ⟨"u", "p", "N/A", 0, 0⟩ "2" '1' 3 "5" '1' 1 (by decide)⟩

/-- C9 (counterexample): the refund is **not** the exact product
`pricePerTicket * ticketCount`.  Booking Tokyo (600000) with 1791
tickets — a count `scanf "%d"` accepts and `booking` stores — gives the
exact product 1074600000, but the C computes the refund in
single-precision float, which rounds it to 1074599936 (the product's
odd part exceeds the 24-bit significand), and that is what
`cancellation` reports. -/
theorem C9_cancel_refund_counterexample :
    cancellation ⟨"u", "p", "Tokyo, Japan", 600000, 1791⟩
        = (⟨"u", "p", "N/A", 0, 0⟩, .Cancelled 1074599936) ∧
      (1074599936 : Int) ≠ (600000 : Int) * 1791 := by
  decide

/-- C9 (amended): over the data model's domain for `place` (a catalog
destination or the sentinel), `cancellation` on a record with a
non-empty booking triple returns `Cancelled` with refund equal to the
single-precision float product of `price` and `numberTicket` — which
equals the exact product `price * numberTicket` whenever that product's
magnitude is below `2^24` — and resets the triple to empty; on an empty
triple it returns `NoActiveBooking`; and Book followed by Cancel
restores the exact pre-Book (empty) record. -/
theorem C9_cancel_refund (r : User) (code : String) (choice : Char)
    (count : Int) (hwf : placeWF r) :
    (r.place ≠ "N/A" → cancellation r
      = ({ r with place := "N/A", price := 0, numberTicket := 0 },
         .Cancelled (floatProd r.price r.numberTicket))) ∧
    (r.place = "N/A" → cancellation r = (r, .NoActiveBooking)) ∧
    (r.price * r.numberTicket.natAbs < 2 ^ 24 →
      floatProd r.price r.numberTicket = (r.price : Int) * r.numberTicket) ∧
    (tripleEmpty r → (booking r code choice count).2 = .Success →
      (cancellation (booking r code choice count).1).1 = r) := by
  refine ⟨?_, ?_, floatProd_exact r.price r.numberTicket, ?_⟩
  · intro hne
    have hin : r.place ∈ placeList := hwf.resolve_right hne
    unfold cancellation
    rw [if_pos (contains_placeList hin)]
  · intro hna
    have hnotin : r.place ∉ placeList := by
      rw [hna]
      decide
    unfold cancellation
    rw [if_neg (by simpa using hnotin)]
  · intro hempty hb
    obtain ⟨pl, pr, hcode, hcnt, heq⟩ := booking_success_eq hb
    obtain ⟨hin, hpl, hpr⟩ := tourLookup_spec hcode
    rw [heq]
    unfold cancellation
    rw [if_pos (contains_placeList (by simpa using hin))]
    obtain ⟨h1, h2, h3⟩ := hempty
    cases r
    simp_all

/-- Witness for `C9_cancel_refund`: cancelling a Tokyo booking of 3
tickets refunds exactly 1800000 (the product is below `2^24`) and
empties the triple; cancel on an empty record reports
`NoActiveBooking`; book-then-cancel restores the record. -/
theorem C9_cancel_refund_witness :
    placeWF (⟨"u", "p", "Tokyo, Japan", 600000, 3⟩ : User) ∧
      cancellation ⟨"u", "p", "Tokyo, Japan", 600000, 3⟩
        = (⟨"u", "p", "N/A", 0, 0⟩, .Cancelled 1800000) ∧
      floatProd 600000 3 = (600000 : Int) * 3 ∧
      cancellation ⟨"u", "p", "N/A", 0, 0⟩
        = (⟨"u", "p", "N/A", 0, 0⟩, .NoActiveBooking) ∧
      (cancellation (booking ⟨"u", "p", "N/A", 0, 0⟩ "2" '1' 3).1).1
        = ⟨"u", "p", "N/A", 0, 0⟩ :=
  ⟨by decide,
   (C9_cancel_refund ⟨"u", "p", "Tokyo, Japan", 600000, 3⟩ "2" '1' 3
     (by decide)).1 (by decide),
   (C9_cancel_refund ⟨"u", "p", "Tokyo, Japan", 600000, 3⟩ "2" '1' 3
     (by decide)).2.2.1 (by decide),
   (C9_cancel_refund ⟨"u", "p", "N/A", 0, 0⟩ "2" '1' 3 (by decide)).2.1 rfl,
   (C9_cancel_refund ⟨"u", "p", "N/A", 0, 0⟩ "2" '1' 3 (by decide)).2.2.2
     (by decide) (by decide)⟩

/-- C10 (counterexample): `checkTicket` does **not** return exactly
`pricePerTicket * ticketCount`.  For a Bangkok booking (250000) of 2149
tickets the exact product is 537250000, but
`float total = price * numberTicket` rounds it to single precision —
537250000 needs 26 significant bits — and the program prints 537249984
(no tie is involved: 537250000 lies strictly nearer the lower
representable neighbour). -/
theorem C10_total_cost_counterexample :
    checkTicket ⟨"u", "p", "Bangkok, Thailand", 250000, 2149⟩
        = .Amount 537249984 ∧
      (537249984 : Int) ≠ (250000 : Int) * 2149 := by
  decide

/-- C10 (amended): over the data model's domain for `place` and under
the booking invariant, `checkTicket` on a record with a non-empty
booking triple returns the single-precision float product of `price`
and `numberTicket` — equal to the exact product whenever its magnitude
is below `2^24` — and `NoActiveBooking` for an empty triple. -/
theorem C10_total_cost (r : User) (hwf : placeWF r) (hinv : inv r) :
    (¬ tripleEmpty r → checkTicket r = .Amount (floatProd r.price r.numberTicket)) ∧
    (tripleEmpty r → checkTicket r = .NoActiveBooking) ∧
    (r.price * r.numberTicket.natAbs < 2 ^ 24 →
      floatProd r.price r.numberTicket = (r.price : Int) * r.numberTicket) := by
  refine ⟨?_, ?_, floatProd_exact r.price r.numberTicket⟩
  · intro hne
    have hprice : r.price ≠ 0 := by
      intro h0
      exact hne ⟨hinv.1.2 h0, h0, hinv.2.1 h0⟩
    have htick : r.numberTicket ≠ 0 := fun h0 => hprice (hinv.2.2 h0)
    have hplna : r.place ≠ "N/A" := fun hp => hprice (hinv.1.1 hp)
    have hin : r.place ∈ placeList := hwf.resolve_right hplna
    have hplne : r.place ≠ "" := by
      intro he
      rw [he] at hin
      exact absurd hin (by decide)
    unfold checkTicket
    rw [if_neg (by simp [hplne, hprice, htick])]
  · intro ⟨h1, h2, h3⟩
    unfold checkTicket
    rw [if_pos (Or.inr (Or.inl h2))]

/-- Witness for `C10_total_cost`: a booked Bangkok record totals
exactly 500000 (below `2^24`); the empty record has no active booking. -/
theorem C10_total_cost_witness :
    placeWF (⟨"u", "p", "Bangkok, Thailand", 250000, 2⟩ : User) ∧
      inv (⟨"u", "p", "Bangkok, Thailand", 250000, 2⟩ : User) ∧
      checkTicket ⟨"u", "p", "Bangkok, Thailand", 250000, 2⟩ = .Amount 500000 ∧
      floatProd 250000 2 = (250000 : Int) * 2 ∧
      checkTicket ⟨"u", "p", "N/A", 0, 0⟩ = .NoActiveBooking :=
  ⟨by decide, by decide,
   (C10_total_cost ⟨"u", "p", "Bangkok, Thailand", 250000, 2⟩
     (by decide) (by decide)).1 (by decide),
   (C10_total_cost ⟨"u", "p", "Bangkok, Thailand", 250000, 2⟩
     (by decide) (by decide)).2.2 (by decide),
   (C10_total_cost ⟨"u", "p", "N/A", 0, 0⟩ (by decide) (by decide)).2.1
     (by decide)⟩

end TMS
